import Mathlib

/-!
Verification of the reverse-tunnel relay (`kidandcat/online`).

This file gives a shallow embedding of the server-side tunnel logic
(`server/tunnel.go`, `server/static.go`), the agent-side relay
(`client/client.go`, final revision embedded in `client/client_test.go`),
and — where the final single-active-tunnel revision of `tunnel.go` is only
witnessed by its tests and callers — models of the missing parts taken from
the specification. Theorems `C1_*` .. `C10_*` settle the frozen claims.
-/

/-- Header multimap: names to ordered value lists, as Go's
`map[string][]string` carried on the wire (order of entries models one
iteration order of the Go map; values keep their order). -/
abbrev HeaderMap := List (String × List String)

/-- Wire message `TunnelRequest` from `server/tunnel.go`. -/
structure TunnelRequest where
  ID      : String
  Method  : String
  Path    : String
  Headers : HeaderMap
  Body    : String
deriving DecidableEq, Repr

/-- Wire message `TunnelResponse` from `server/tunnel.go`. -/
structure TunnelResponse where
  ID         : String
  StatusCode : Nat
  Headers    : HeaderMap
  Body       : String
deriving DecidableEq, Repr

/-- Association-list lookup modelling Go map indexing `m[k]`. -/
def lookupKey {β : Type} : List (String × β) → String → Option β
  | [], _ => none
  | kv :: rest, k => if kv.1 = k then some kv.2 else lookupKey rest k

/-- Remove the first occurrence of an identifier, modelling `delete(m, k)`
on the list of registered keys. -/
def eraseId : List String → String → List String
  | [], _ => []
  | x :: rest, k => if x = k then rest else x :: eraseId rest k

/-- ASCII lowercasing of a string, modelling `strings.ToLower` on
header names and file extensions (all relevant inputs are ASCII). -/
def strToLower (s : String) : String :=
  String.mk (s.data.map Char.toLower)

/-- Lowercased file extension of a path, without the dot, modelling
`filepath.Ext`: the suffix after the final dot of the final path element,
or `none` when that element has no dot. -/
def extOf (path : String) : Option String :=
  let rev := path.data.reverse
  let pre := rev.takeWhile (fun c => c != '.' && c != '/')
  match rev.drop pre.length with
  | '.' :: _ => some (String.mk (pre.reverse.map Char.toLower))
  | _ => none

/-- Modelled from the spec: the fixed extension-to-MIME table of the
content-type correction (spec section 4.4, "covering common web asset
types: stylesheets, scripts, markup, images, fonts, documents"); the
implementation file holding `getCorrectContentType` is not under `src/`,
only `TestGetCorrectContentType` in `server/tunnel_test.go` exercises it.
The rows required by that test (`css`, `js`, `svg`, `woff2`) are included
verbatim. -/
def mimeTable : List (String × String) :=
  [ ("css", "text/css")
  , ("js", "application/javascript")
  , ("html", "text/html")
  , ("htm", "text/html")
  , ("json", "application/json")
  , ("xml", "application/xml")
  , ("png", "image/png")
  , ("jpg", "image/jpeg")
  , ("jpeg", "image/jpeg")
  , ("gif", "image/gif")
  , ("svg", "image/svg+xml")
  , ("ico", "image/x-icon")
  , ("woff", "font/woff")
  , ("woff2", "font/woff2")
  , ("ttf", "font/ttf")
  , ("otf", "font/otf")
  , ("pdf", "application/pdf") ]

/-- Modelled from the spec: `getCorrectContentType(path, currentTypes)`
(spec section 4.4): extract the lowercase extension, look it up in the
fixed table, and return the table MIME value when the first declared type
is exactly `text/plain` or `application/octet-stream`; the empty string
means "no correction", as in `TestGetCorrectContentType`. -/
def getCorrectContentType (path : String) (currentTypes : List String) : String :=
  match extOf path with
  | none => ""
  | some e =>
    match lookupKey mimeTable e with
    | none => ""
    | some m =>
      match currentTypes with
      | [] => ""
      | t :: _ =>
        if t = "text/plain" ∨ t = "application/octet-stream" then m else ""

example : getCorrectContentType "/style.css" ["text/plain"] = "text/css" := by decide
example : getCorrectContentType "/script.js" ["application/octet-stream"] = "application/javascript" := by decide
example : getCorrectContentType "/style.css" ["text/css"] = "" := by decide
example : getCorrectContentType "/file.xyz" ["text/plain"] = "" := by decide
example : getCorrectContentType "/file" ["text/plain"] = "" := by decide
example : getCorrectContentType "/image.svg" ["text/plain"] = "image/svg+xml" := by decide
example : getCorrectContentType "/font.woff2" ["application/octet-stream"] = "font/woff2" := by decide

/-- Modelled from the spec: the response writing of the final
`ForwardRequest` (spec section 4.3): copy all header values verbatim,
except that the header carrying the content type is first run through the
correction function against the request path; a non-empty correction
replaces the supplied values. The final revision applying the correction
is not under `src/`; the superseded revision in `server/tunnel.go`
(lines 424-437) copies every header verbatim. Status code and body are
written verbatim. -/
structure WrittenResponse where
  status  : Nat
  headers : HeaderMap
  body    : String
deriving DecidableEq, Repr

/-- Modelled from the spec: header rewriting applied per entry while
relaying a tunnel response to the public caller. -/
def correctHeaderEntry (reqPath : String) (kv : String × List String) : String × List String :=
  if strToLower kv.1 = "content-type" ∧ getCorrectContentType reqPath kv.2 ≠ "" then
    (kv.1, [getCorrectContentType reqPath kv.2])
  else kv

/-- Modelled from the spec: the response the Router writes to the public
caller for a delivered agent response. -/
def writeTunnelResponse (reqPath : String) (resp : TunnelResponse) : WrittenResponse :=
  { status := resp.StatusCode
  , headers := resp.Headers.map (correctHeaderEntry reqPath)
  , body := resp.Body }

/-- Outcome of the post-write wait in `ForwardRequest`
(`server/tunnel.go` lines 410-439): the `select` over the caller context
deadline and the capacity-one response channel. -/
inductive ForwardOutcome where
  | delivered (r : TunnelResponse)
  | timedOut
  | connClosed
deriving DecidableEq, Repr

/-- Instant at which the channel receive in the `select` becomes ready:
the earlier of a delivery by the read loop (`ch <- &resp`) and the channel
close performed when the read loop exits. `none` when neither ever
happens. -/
def recvReadyAt (deliver : Option (Nat × TunnelResponse)) (closeAt : Option Nat) : Option Nat :=
  match deliver, closeAt with
  | none, none => none
  | some (t, _), none => some t
  | none, some u => some u
  | some (t, _), some u => some (min t u)

/-- The `select` of `ForwardRequest` after the request was written:
`deadline` is the (always finite) instant of `ctx.Done()` — the context
is capped at 30 seconds even when the caller never cancels; `deliver` is
the instant and payload of a read-loop delivery into the capacity-one
channel, if any; `closeAt` is the instant the read loop closes the
channel, if any. A buffered delivery is observed by the receive even when
the channel was closed just after it; a close with no prior delivery
yields the nil response. Ties between a ready receive and the expired
deadline are resolved towards the receive. Returns the outcome and the
instant the call returns. -/
def resolveWait (deadline : Nat) (deliver : Option (Nat × TunnelResponse))
    (closeAt : Option Nat) : ForwardOutcome × Nat :=
  match recvReadyAt deliver closeAt with
  | none => (ForwardOutcome.timedOut, deadline)
  | some tr =>
    if tr ≤ deadline then
      match deliver with
      | some (t, r) => if t ≤ tr then (ForwardOutcome.delivered r, tr) else (ForwardOutcome.connClosed, tr)
      | none => (ForwardOutcome.connClosed, tr)
    else (ForwardOutcome.timedOut, deadline)

/-- Headers written by Go's `http.Error`. -/
def httpErrorHeaders : HeaderMap :=
  [("Content-Type", ["text/plain; charset=utf-8"]), ("X-Content-Type-Options", ["nosniff"])]

/-- What `ForwardRequest` writes to the public caller for each wait
outcome: the 504 "Request timeout" error, the 502 "Connection closed"
error for a nil response from a closed channel, or the delivered response
verbatim (this superseded revision applies no content-type correction). -/
def respondOutcome (o : ForwardOutcome) : WrittenResponse :=
  match o with
  | ForwardOutcome.delivered r => { status := r.StatusCode, headers := r.Headers, body := r.Body }
  | ForwardOutcome.timedOut => { status := 504, headers := httpErrorHeaders, body := "Request timeout" }
  | ForwardOutcome.connClosed => { status := 502, headers := httpErrorHeaders, body := "Connection closed" }

/-- State of one Tunnel's correlation map as seen by the read loop
(`server/tunnel.go` lines 324-366): `pending` holds the identifiers with
a registered, still-empty capacity-one channel in `t.responses`;
`delivered` records, per identifier, the response handed to the waiting
caller. -/
structure CorrState where
  pending   : List String
  delivered : List (String × TunnelResponse)
deriving DecidableEq, Repr

/-- One iteration of the read loop for a decoded response
(`server/tunnel.go` lines 345-364): look up the channel for `r.ID` under
lock; if present, remove the entry and deliver `r`; otherwise log and
drop, leaving the state untouched. -/
def processResponse (s : CorrState) (r : TunnelResponse) : CorrState :=
  if r.ID ∈ s.pending then
    { pending := eraseId s.pending r.ID, delivered := (r.ID, r) :: s.delivered }
  else s

/-- Deliver a batch of decoded responses in arrival order. -/
def deliverAll (s : CorrState) (rs : List TunnelResponse) : CorrState :=
  rs.foldl processResponse s

/-- The read loop's exit path (`server/tunnel.go` lines 325-333): on
decode failure every remaining registered channel is closed, releasing
its waiter with a nil response; no further deliveries happen. -/
def drainState (s : CorrState) : CorrState :=
  { pending := [], delivered := s.delivered }

/-- The whole read loop over a stream of decode results: `some r` is a
successfully decoded response (processed, loop continues), `none` is a
decode failure or connection error (loop drains and exits). -/
def runLoop (s : CorrState) : List (Option TunnelResponse) → CorrState
  | [] => s
  | none :: _ => drainState s
  | some r :: rest => runLoop (processResponse s r) rest

/-- Modelled from the spec: the final `TunnelManager` with its single
`activeTunnel` slot (spec section 4.1). The implementation file is not
under `src/`; `server/tunnel_test.go` (`tm.activeTunnel`,
`GetActiveTunnel`, the "already active" error) and `main.go` reference
it. A tunnel is an opaque token here. -/
structure ActiveTunnel where
  id        : String
  createdAt : Nat
deriving DecidableEq, Repr

/-- Modelled from the spec: result of `CreateTunnel` — the new tunnel, or
the `AlreadyActive` rejection. -/
inductive CreateResult where
  | created (t : ActiveTunnel)
  | alreadyActive
deriving DecidableEq, Repr

/-- Modelled from the spec: `CreateTunnel(connection)` atomically checks
the active-tunnel slot under the manager lock; when occupied it fails
with `AlreadyActive` and registers nothing, otherwise it registers the
fresh tunnel as the sole active one (spec section 4.1). -/
def createTunnel (st : Option ActiveTunnel) (fresh : ActiveTunnel) :
    CreateResult × Option ActiveTunnel :=
  match st with
  | some _ => (CreateResult.alreadyActive, st)
  | none => (CreateResult.created fresh, some fresh)

/-- Number of successful creations in a sequence of `CreateTunnel`
attempts run one after the other — the manager mutex makes every call
atomic, so any concurrent execution is equivalent to some such
sequence. -/
def successCount (st : Option ActiveTunnel) : List ActiveTunnel → Nat
  | [] => 0
  | a :: rest =>
    match createTunnel st a with
    | (CreateResult.created _, st2) => 1 + successCount st2 rest
    | (CreateResult.alreadyActive, st2) => successCount st2 rest

/-- A tunnel as held by the superseded path-keyed manager of
`server/tunnel.go` (second revision): the manager-visible identity plus
whether `Close` has run on its connection. -/
structure SrcTunnel where
  ID     : String
  closed : Bool
deriving DecidableEq, Repr

/-- Go `tunnel.Close()`: closes the underlying connection. -/
def closeTunnel (t : SrcTunnel) : SrcTunnel :=
  { t with closed := true }

/-- The path-keyed tunnel map of the `TunnelManager` in
`server/tunnel.go` (second revision). -/
abbrev TunnelMap := List (String × SrcTunnel)

/-- Go `RemoveTunnel(path)` (`server/tunnel.go` lines 314-322): under the
manager lock, if a tunnel is registered at `path`, close it and delete
the entry; otherwise do nothing. -/
def removeTunnel (tunnels : TunnelMap) (path : String) : TunnelMap :=
  match lookupKey tunnels path with
  | some _ => tunnels.filter (fun kv => kv.1 != path)
  | none => tunnels

/-- Go `GetTunnel(path)` (`server/tunnel.go` lines 306-312): non-blocking
lookup of the tunnel registered at `path`. -/
def getTunnel (tunnels : TunnelMap) (path : String) : Option SrcTunnel :=
  lookupKey tunnels path

/-- Denylist of forwarding-specific headers the agent strips
(`client/client_test.go` lines 404-409, final `client.go` revision),
matched on the lowercased name. -/
def skipHeaders : List String :=
  ["x-forwarded-proto", "x-forwarded-ssl", "x-forwarded-port", "x-forwarded-for"]

/-- The header-copy loop of the agent's `handleRequest`
(`client/client_test.go` lines 411-415): copy every request header whose
lowercased name is not on the denylist, with all its values. -/
def removeForwardedHeaders (h : HeaderMap) : HeaderMap :=
  h.filter (fun kv => !(skipHeaders.contains (strToLower kv.1)))

/-- Go `http.Header.Set(k, v)` for an already-canonical key `k`: drop any
existing entry under that exact key and record the single value. -/
def headerSet (h : HeaderMap) (k : String) (vs : List String) : HeaderMap :=
  h.filter (fun kv => kv.1 != k) ++ [(k, vs)]

/-- Headers of the local HTTP call the agent builds for a forwarded
request (`client/client_test.go` lines 403-418): the denylist-filtered
copy, then `httpReq.Header.Set("X-Forwarded-Proto", "http")`. -/
def buildLocalHeaders (reqHeaders : HeaderMap) : HeaderMap :=
  headerSet (removeForwardedHeaders reqHeaders) "X-Forwarded-Proto" ["http"]

/-- Go `sendErrorResponse(reqID, statusCode, message)`
(`client/client_test.go` lines 457-471): the synthesized plain-text error
response carrying the originating identifier. -/
def sendErrorResponse (reqID : String) (statusCode : Nat) (message : String) : TunnelResponse :=
  { ID := reqID
  , StatusCode := statusCode
  , Headers := [("Content-Type", ["text/plain"])]
  , Body := message }

/-- Stage at which the agent's local call can fail, or its result
(`client/client_test.go` lines 392-455): building the request, executing
it, reading the body, or the successful local response. -/
inductive LocalCallResult where
  | buildFailed
  | requestFailed
  | readFailed
  | ok (statusCode : Nat) (headers : HeaderMap) (body : String)
deriving DecidableEq, Repr

/-- The single `TunnelResponse` the agent's `handleRequest` produces for
a forwarded request, by stage outcome: the real local response, or the
synthesized 500/502 error of the failing stage. -/
def handleRequest (reqID : String) (result : LocalCallResult) : TunnelResponse :=
  match result with
  | LocalCallResult.buildFailed => sendErrorResponse reqID 500 "Failed to create request"
  | LocalCallResult.requestFailed => sendErrorResponse reqID 502 "Failed to forward request"
  | LocalCallResult.readFailed => sendErrorResponse reqID 500 "Failed to read response"
  | LocalCallResult.ok s h b => { ID := reqID, StatusCode := s, Headers := h, Body := b }

/-- All messages `handleRequest` writes back over the shared connection
for one forwarded request: every branch ends in exactly one serialized
write (the error sender or the final `WriteJSON`), each under the write
lock. -/
def handleRequestWrites (reqID : String) (result : LocalCallResult) : List TunnelResponse :=
  match result with
  | LocalCallResult.buildFailed => [sendErrorResponse reqID 500 "Failed to create request"]
  | LocalCallResult.requestFailed => [sendErrorResponse reqID 502 "Failed to forward request"]
  | LocalCallResult.readFailed => [sendErrorResponse reqID 500 "Failed to read response"]
  | LocalCallResult.ok s h b => [{ ID := reqID, StatusCode := s, Headers := h, Body := b }]

/-- One static store: normalized filename to content
(`server/static.go`). -/
abbrev StoreFiles := List (String × String)

/-- The store table of the `StaticFileManager` (`server/static.go`). -/
abbrev StoreMap := List (String × StoreFiles)

/-- Go `strings.TrimPrefix(s, "/")`: drop one leading slash if present
(`server/static.go` line 90). -/
def trimLeadingSlash (s : String) : String :=
  match s.data with
  | '/' :: rest => String.mk rest
  | _ => s

/-- Go `StaticStore.AddFile` (`server/static.go` lines 85-92): normalize
the filename and store the content, replacing any previous entry. -/
def addFile (files : StoreFiles) (filename content : String) : StoreFiles :=
  let name := trimLeadingSlash filename
  files.filter (fun kv => kv.1 != name) ++ [(name, content)]

/-- Go `HandleUpload` (`server/static.go` lines 144-188): reject non-POST
with 405 touching nothing; on a multipart parse failure answer 400
touching nothing; otherwise create a fresh store, add every uploaded
file, and answer 200. The status and body written plus the resulting
store table. -/
def handleUpload (method : String) (parseOk : Bool) (files : List (String × String))
    (newId : String) (stores : StoreMap) : (Nat × String) × StoreMap :=
  if method != "POST" then ((405, "Method not allowed"), stores)
  else if !parseOk then ((400, "Failed to parse form"), stores)
  else
    let store := files.foldl (fun acc f => addFile acc f.1 f.2) []
    ((200, ""), (newId, store) :: stores)

/-- Number of deliveries recorded for an identifier: how many responses
the receptacle registered under `i` has received over the whole run. -/
def deliveredCount (s : CorrState) (i : String) : Nat :=
  (s.delivered.map Prod.fst).count i

/-- Concrete response used by witnesses. -/
def sampleResp : TunnelResponse :=
  { ID := "id1", StatusCode := 200, Headers := [], Body := "ok" }

/-- Concrete response with identifier `a`, used by witnesses. -/
def sampleRespA : TunnelResponse :=
  { ID := "a", StatusCode := 200, Headers := [], Body := "A" }

/-- Concrete response with identifier `b`, used by witnesses. -/
def sampleRespB : TunnelResponse :=
  { ID := "b", StatusCode := 201, Headers := [], Body := "B" }

/-- Concrete response declaring a generic content type, used by
witnesses. -/
def sampleCtResp : TunnelResponse :=
  { ID := "id2", StatusCode := 200, Headers := [("Content-Type", ["text/plain"])], Body := "x" }

theorem lookupKey_mem {β : Type} {l : List (String × β)} {k : String} {v : β}
    (h : lookupKey l k = some v) : (k, v) ∈ l := by
  induction l with
  | nil => simp [lookupKey] at h
  | cons kv rest ih =>
    by_cases hk : kv.1 = k
    · simp only [lookupKey, if_pos hk, Option.some.injEq] at h
      subst h
      subst hk
      exact List.mem_cons_self _ _
    · simp only [lookupKey, if_neg hk] at h
      exact List.mem_cons_of_mem _ (ih h)

theorem mimeTable_value_ne_empty {e m : String}
    (h : lookupKey mimeTable e = some m) : m ≠ "" := by
  have hmem := lookupKey_mem h
  have hall : ∀ x ∈ mimeTable, x.2 ≠ "" := by decide
  exact hall _ hmem

/-- Claim C6: the content-type correction is pure and returns a
replacement exactly when the lowercase extension of the path is in the
fixed extension-to-MIME table and the first declared type is exactly
`text/plain` or `application/octet-stream`, in which case the replacement
is the table's MIME value; in every other case it returns no correction;
and the four sample evaluations hold. -/
theorem C6_content_type_correction :
    (∀ path ts, getCorrectContentType path ts ≠ "" ↔
      ∃ e m t rest, extOf path = some e ∧ lookupKey mimeTable e = some m ∧
        ts = t :: rest ∧ (t = "text/plain" ∨ t = "application/octet-stream"))
    ∧ (∀ path ts, getCorrectContentType path ts ≠ "" →
        ∃ e, extOf path = some e ∧
          lookupKey mimeTable e = some (getCorrectContentType path ts))
    ∧ getCorrectContentType "/style.css" ["text/plain"] = "text/css"
    ∧ getCorrectContentType "/style.css" ["text/css"] = ""
    ∧ getCorrectContentType "/a.xyz" ["text/plain"] = ""
    ∧ (∀ ts, getCorrectContentType "/noext" ts = "") := by
  have hiff : ∀ path ts, getCorrectContentType path ts ≠ "" ↔
      ∃ e m t rest, extOf path = some e ∧ lookupKey mimeTable e = some m ∧
        ts = t :: rest ∧ (t = "text/plain" ∨ t = "application/octet-stream") := by
    intro path ts
    constructor
    · intro hne
      rcases hext : extOf path with _ | e
      · simp [getCorrectContentType, hext] at hne
      rcases hlk : lookupKey mimeTable e with _ | m
      · simp [getCorrectContentType, hext, hlk] at hne
      rcases ts with _ | ⟨t, rest⟩
      · simp [getCorrectContentType, hext, hlk] at hne
      by_cases hc : t = "text/plain" ∨ t = "application/octet-stream"
      · exact ⟨e, m, t, rest, rfl, hlk, rfl, hc⟩
      · simp [getCorrectContentType, hext, hlk, hc] at hne
    · rintro ⟨e, m, t, rest, hext, hlk, rfl, hc⟩
      simp [getCorrectContentType, hext, hlk, hc]
      exact mimeTable_value_ne_empty hlk
  refine ⟨hiff, ?_, by decide, by decide, by decide, ?_⟩
  · intro path ts hne
    obtain ⟨e, m, t, rest, hext, hlk, hts, hc⟩ := (hiff path ts).mp hne
    subst hts
    have hval : getCorrectContentType path (t :: rest) = m := by
      simp [getCorrectContentType, hext, hlk, hc]
    exact ⟨e, hext, by rw [hval]; exact hlk⟩
  · intro ts
    have hext : extOf "/noext" = none := by decide
    simp [getCorrectContentType, hext]

/-- Witness for C6: the correction applied to a stylesheet path declared
as plain text is exactly the table entry for `css`. -/
theorem C6_content_type_correction_witness :
    ∃ e, extOf "/style.css" = some e ∧
      lookupKey mimeTable e = some (getCorrectContentType "/style.css" ["text/plain"]) :=
  C6_content_type_correction.2.1 "/style.css" ["text/plain"] (by decide)

theorem lookupKey_filter_ne {β : Type} (l : List (String × β)) (path : String) :
    lookupKey (l.filter (fun kv => kv.1 != path)) path = none := by
  induction l with
  | nil => rfl
  | cons kv rest ih =>
    by_cases hk : kv.1 = path
    · simp [List.filter_cons, hk, ih]
    · simp [List.filter_cons, bne_iff_ne, hk, lookupKey, ih]

/-- Claim C9: `RemoveTunnel` is idempotent — on an unregistered key it
changes nothing, running it twice equals running it once, and after any
call the lookup for that key reports absent. -/
theorem C9_removeTunnel_idempotent (tunnels : TunnelMap) (path : String) :
    (lookupKey tunnels path = none → removeTunnel tunnels path = tunnels)
    ∧ removeTunnel (removeTunnel tunnels path) path = removeTunnel tunnels path
    ∧ getTunnel (removeTunnel tunnels path) path = none := by
  refine ⟨?_, ?_, ?_⟩
  · intro h
    simp [removeTunnel, h]
  · rcases hlk : lookupKey tunnels path with _ | t
    · simp [removeTunnel, hlk]
    · simp [removeTunnel, hlk, lookupKey_filter_ne]
  · rcases hlk : lookupKey tunnels path with _ | t
    · simp [getTunnel, removeTunnel, hlk]
    · simp [getTunnel, removeTunnel, hlk, lookupKey_filter_ne]

/-- Witness for C9: removing an unregistered key changes nothing, and
after removing a registered key that key's lookup is absent. -/
theorem C9_removeTunnel_idempotent_witness :
    removeTunnel ([] : TunnelMap) "q" = []
    ∧ getTunnel (removeTunnel [("p", { ID := "t1", closed := false })] "p") "p" = none :=
  ⟨(C9_removeTunnel_idempotent [] "q").1 rfl,
   (C9_removeTunnel_idempotent [("p", { ID := "t1", closed := false })] "p").2.2⟩

/-- Claim C10: a non-POST request to the upload endpoint gets a 405
Method Not Allowed response and leaves the store table identical; no
store is created. -/
theorem C10_upload_non_post (method : String) (parseOk : Bool)
    (files : List (String × String)) (newId : String) (stores : StoreMap)
    (h : method ≠ "POST") :
    handleUpload method parseOk files newId stores = ((405, "Method not allowed"), stores) := by
  simp [handleUpload, bne_iff_ne, h]

/-- Witness for C10: a GET upload attempt against the empty store table
answers 405 and leaves the table empty. -/
theorem C10_upload_non_post_witness :
    handleUpload "GET" true [] "abc" [] = ((405, "Method not allowed"), []) :=
  C10_upload_non_post "GET" true [] "abc" [] (by decide)

/-- Claim C8: for every forwarded request the agent receives, it writes
back exactly one response carrying the originating identifier — the local
call's real response on success, or a synthesized 500/502 plain-text
error on failure at any stage. -/
theorem C8_agent_definite_response (reqID : String) (result : LocalCallResult) :
    handleRequestWrites reqID result = [handleRequest reqID result]
    ∧ (handleRequest reqID result).ID = reqID
    ∧ (∀ s h b, result = LocalCallResult.ok s h b →
        handleRequest reqID result =
          { ID := reqID, StatusCode := s, Headers := h, Body := b })
    ∧ ((result = LocalCallResult.buildFailed ∨ result = LocalCallResult.requestFailed ∨
          result = LocalCallResult.readFailed) →
        ((handleRequest reqID result).StatusCode = 500 ∨
          (handleRequest reqID result).StatusCode = 502)
        ∧ (handleRequest reqID result).Headers = [("Content-Type", ["text/plain"])]) := by
  cases result <;> simp [handleRequest, handleRequestWrites, sendErrorResponse]

/-- Witness for C8: a successful local call is relayed verbatim under the
originating identifier, and a failed execution stage yields the 502
plain-text error. -/
theorem C8_agent_definite_response_witness :
    handleRequest "r1" (LocalCallResult.ok 200 [] "hi") =
      { ID := "r1", StatusCode := 200, Headers := [], Body := "hi" }
    ∧ ((handleRequest "r2" LocalCallResult.requestFailed).StatusCode = 500 ∨
        (handleRequest "r2" LocalCallResult.requestFailed).StatusCode = 502)
    ∧ (handleRequest "r2" LocalCallResult.requestFailed).Headers =
        [("Content-Type", ["text/plain"])] :=
  ⟨(C8_agent_definite_response "r1" (LocalCallResult.ok 200 [] "hi")).2.2.1 200 [] "hi" rfl,
   ((C8_agent_definite_response "r2" LocalCallResult.requestFailed).2.2.2 (Or.inr (Or.inl rfl))).1,
   ((C8_agent_definite_response "r2" LocalCallResult.requestFailed).2.2.2 (Or.inr (Or.inl rfl))).2⟩

theorem successCount_some (attempts : List ActiveTunnel) (t : ActiveTunnel) :
    successCount (some t) attempts = 0 := by
  induction attempts with
  | nil => rfl
  | cons a rest ih => simpa [successCount, createTunnel] using ih

/-- Claim C1: at most one tunnel is active — `CreateTunnel` against a
manager with a live tunnel fails with `AlreadyActive` and registers
nothing, and any nonempty sequence of create attempts against an empty
manager (the mutex serializes concurrent calls) has exactly one
success. -/
theorem C1_single_active_tunnel :
    (∀ (st : Option ActiveTunnel) (fresh : ActiveTunnel), st.isSome = true →
      createTunnel st fresh = (CreateResult.alreadyActive, st))
    ∧ (∀ attempts : List ActiveTunnel, attempts ≠ [] →
        successCount none attempts = 1) := by
  constructor
  · intro st fresh h
    cases st with
    | none => simp at h
    | some t => rfl
  · intro attempts h
    cases attempts with
    | nil => exact absurd rfl h
    | cons a rest => simp [successCount, createTunnel, successCount_some]

/-- Witness for C1: a second create against an occupied manager is
rejected without a state change, and three attempts against an empty
manager succeed exactly once. -/
theorem C1_single_active_tunnel_witness :
    createTunnel (some { id := "t0", createdAt := 0 }) { id := "t1", createdAt := 1 } =
      (CreateResult.alreadyActive, some { id := "t0", createdAt := 0 })
    ∧ successCount none
        [{ id := "t1", createdAt := 1 }, { id := "t2", createdAt := 2 },
         { id := "t3", createdAt := 3 }] = 1 :=
  ⟨C1_single_active_tunnel.1 (some { id := "t0", createdAt := 0 })
      { id := "t1", createdAt := 1 } rfl,
   C1_single_active_tunnel.2
      [{ id := "t1", createdAt := 1 }, { id := "t2", createdAt := 2 },
       { id := "t3", createdAt := 3 }] (by decide)⟩

theorem removeForwardedHeaders_no_xfp (h : HeaderMap) :
    ∀ kv ∈ removeForwardedHeaders h, (kv.1 != "X-Forwarded-Proto") = true := by
  intro kv hkv
  have hpred := List.of_mem_filter hkv
  simp only [Bool.not_eq_true'] at hpred
  simp only [bne_iff_ne, ne_eq]
  intro hk
  rw [hk] at hpred
  have : skipHeaders.contains (strToLower "X-Forwarded-Proto") = true := by decide
  rw [this] at hpred
  cases hpred

/-- Claim C7 counterexample: the header set the agent builds is not
exactly the request headers minus the denylist — after stripping the
denylisted `X-Forwarded-Proto: https`, the built set still gains a
synthetic `X-Forwarded-Proto: http` entry that is not among the
remaining request headers. -/
theorem C7_counterexample :
    ¬ (buildLocalHeaders [("X-Forwarded-Proto", ["https"]), ("Accept", ["text/html"])] =
        removeForwardedHeaders [("X-Forwarded-Proto", ["https"]), ("Accept", ["text/html"])]) := by
  decide

/-- Claim C7 amended: the local call's header set equals the request
headers with the denylisted forwarding headers removed (matched on the
lowercased name), followed by exactly one synthetic entry
`X-Forwarded-Proto: [http]`; every non-denylisted request header is kept
with all its values, and every built header is either such a request
header or that synthetic entry. -/
theorem C7_agent_headers_amended (h : HeaderMap) :
    buildLocalHeaders h = removeForwardedHeaders h ++ [("X-Forwarded-Proto", ["http"])]
    ∧ (∀ kv ∈ h, skipHeaders.contains (strToLower kv.1) = false → kv ∈ buildLocalHeaders h)
    ∧ (∀ kv ∈ buildLocalHeaders h,
        (kv ∈ h ∧ skipHeaders.contains (strToLower kv.1) = false)
        ∨ kv = ("X-Forwarded-Proto", ["http"])) := by
  have hset : buildLocalHeaders h =
      removeForwardedHeaders h ++ [("X-Forwarded-Proto", ["http"])] := by
    unfold buildLocalHeaders headerSet
    rw [List.filter_eq_self.mpr (removeForwardedHeaders_no_xfp h)]
  refine ⟨hset, ?_, ?_⟩
  · intro kv hkv hskip
    rw [hset]
    refine List.mem_append_left _ ?_
    exact List.mem_filter.mpr ⟨hkv, by rw [Bool.not_eq_true']; exact hskip⟩
  · intro kv hkv
    rw [hset] at hkv
    rcases List.mem_append.mp hkv with hl | hr
    · left
      refine ⟨List.mem_of_mem_filter hl, ?_⟩
      have := List.of_mem_filter hl
      simpa [Bool.not_eq_true'] using this
    · right
      simpa using hr

/-- Witness for C7 (amended): a request with one denylisted and one
ordinary header builds exactly the ordinary header followed by the
synthetic `X-Forwarded-Proto: http`. -/
theorem C7_agent_headers_amended_witness :
    buildLocalHeaders [("X-Forwarded-For", ["1.2.3.4"]), ("Accept", ["text/html"])] =
      removeForwardedHeaders [("X-Forwarded-For", ["1.2.3.4"]), ("Accept", ["text/html"])]
        ++ [("X-Forwarded-Proto", ["http"])]
    ∧ ("Accept", ["text/html"]) ∈
        buildLocalHeaders [("X-Forwarded-For", ["1.2.3.4"]), ("Accept", ["text/html"])] :=
  ⟨(C7_agent_headers_amended [("X-Forwarded-For", ["1.2.3.4"]), ("Accept", ["text/html"])]).1,
   (C7_agent_headers_amended [("X-Forwarded-For", ["1.2.3.4"]), ("Accept", ["text/html"])]).2.1
     ("Accept", ["text/html"]) (by decide) (by decide)⟩

/-- Claim C5: the response forwarded to the public caller has exactly the
agent response's status code, header entries (all names and values, in
order), and body, with the single exception of the content-type header
when the correction rule applies to the request path and declared
values. -/
theorem C5_response_preserved (reqPath : String) (resp : TunnelResponse) :
    (writeTunnelResponse reqPath resp).status = resp.StatusCode
    ∧ (writeTunnelResponse reqPath resp).body = resp.Body
    ∧ (writeTunnelResponse reqPath resp).headers.length = resp.Headers.length
    ∧ (∀ kv ∈ resp.Headers,
        ¬ (strToLower kv.1 = "content-type" ∧ getCorrectContentType reqPath kv.2 ≠ "") →
          kv ∈ (writeTunnelResponse reqPath resp).headers)
    ∧ (∀ kv ∈ resp.Headers,
        strToLower kv.1 = "content-type" → getCorrectContentType reqPath kv.2 ≠ "" →
          (kv.1, [getCorrectContentType reqPath kv.2]) ∈ (writeTunnelResponse reqPath resp).headers)
    ∧ ((∀ kv ∈ resp.Headers,
          ¬ (strToLower kv.1 = "content-type" ∧ getCorrectContentType reqPath kv.2 ≠ "")) →
        (writeTunnelResponse reqPath resp).headers = resp.Headers) := by
  refine ⟨rfl, rfl, by simp [writeTunnelResponse], ?_, ?_, ?_⟩
  · intro kv hkv hno
    have hfix : correctHeaderEntry reqPath kv = kv := by
      unfold correctHeaderEntry
      rw [if_neg hno]
    have : correctHeaderEntry reqPath kv ∈ (writeTunnelResponse reqPath resp).headers :=
      List.mem_map_of_mem _ hkv
    rwa [hfix] at this
  · intro kv hkv hct happ
    have hfix : correctHeaderEntry reqPath kv = (kv.1, [getCorrectContentType reqPath kv.2]) := by
      unfold correctHeaderEntry
      rw [if_pos ⟨hct, happ⟩]
    have : correctHeaderEntry reqPath kv ∈ (writeTunnelResponse reqPath resp).headers :=
      List.mem_map_of_mem _ hkv
    rwa [hfix] at this
  · intro hall
    show resp.Headers.map (correctHeaderEntry reqPath) = resp.Headers
    have : ∀ kv ∈ resp.Headers, correctHeaderEntry reqPath kv = kv := by
      intro kv hkv
      unfold correctHeaderEntry
      rw [if_neg (hall kv hkv)]
    calc resp.Headers.map (correctHeaderEntry reqPath) = resp.Headers.map id :=
          List.map_congr_left this
      _ = resp.Headers := List.map_id _

/-- Witness for C5: a generic `text/plain` content type on a stylesheet
path is replaced by the table entry, and a response whose headers never
trigger the rule is written back with its header list unchanged. -/
theorem C5_response_preserved_witness :
    ("Content-Type", [getCorrectContentType "/style.css" ["text/plain"]]) ∈
      (writeTunnelResponse "/style.css" sampleCtResp).headers
    ∧ (writeTunnelResponse "/data.bin" sampleResp).headers = sampleResp.Headers :=
  ⟨(C5_response_preserved "/style.css" sampleCtResp).2.2.2.2.1
      ("Content-Type", ["text/plain"]) (by decide) (by decide) (by decide),
   (C5_response_preserved "/data.bin" sampleResp).2.2.2.2.2 (by decide)⟩

/-- Claim C2: after the request is written, exactly one of three
outcomes resolves the wait — the matching response is delivered and
written back, the deadline elapses and a 504 is written, or the tunnel
closes and a 502 is written; the call returns no later than the deadline,
so it never hangs. -/
theorem C2_forward_exactly_one_outcome (deadline : Nat)
    (deliver : Option (Nat × TunnelResponse)) (closeAt : Option Nat) :
    (resolveWait deadline deliver closeAt).2 ≤ deadline
    ∧ ((∃ r, (resolveWait deadline deliver closeAt).1 = ForwardOutcome.delivered r
          ∧ respondOutcome (resolveWait deadline deliver closeAt).1 =
              { status := r.StatusCode, headers := r.Headers, body := r.Body })
      ∨ ((resolveWait deadline deliver closeAt).1 = ForwardOutcome.timedOut
          ∧ (respondOutcome (resolveWait deadline deliver closeAt).1).status = 504)
      ∨ ((resolveWait deadline deliver closeAt).1 = ForwardOutcome.connClosed
          ∧ (respondOutcome (resolveWait deadline deliver closeAt).1).status = 502))
    ∧ ((resolveWait deadline deliver closeAt).1 = ForwardOutcome.timedOut →
        ∀ tr, recvReadyAt deliver closeAt = some tr → deadline < tr)
    ∧ (∀ r, (resolveWait deadline deliver closeAt).1 = ForwardOutcome.delivered r →
        ∃ t0, deliver = some (t0, r) ∧ t0 ≤ deadline)
    ∧ ((resolveWait deadline deliver closeAt).1 = ForwardOutcome.connClosed →
        ∃ u, closeAt = some u ∧ u ≤ deadline) := by
  refine ⟨?_, ?_, ?_, ?_, ?_⟩ <;>
    rcases deliver with _ | ⟨t, r⟩ <;> rcases closeAt with _ | u <;>
      simp only [resolveWait, recvReadyAt] <;> (try split_ifs) <;>
        first
        | (simp [respondOutcome]; omega)
        | simp [respondOutcome]

/-- Witness for C2: with no delivery and no close the wait times out at
the deadline; a delivery at instant 5 against deadline 30 resolves as
that delivered response; a close at instant 7 with no delivery resolves
as connection-closed within the deadline. -/
theorem C2_forward_exactly_one_outcome_witness :
    (∀ tr, recvReadyAt none none = some tr → 30 < tr)
    ∧ (∃ t0, some (5, sampleResp) = some (t0, sampleResp) ∧ t0 ≤ 30)
    ∧ (∃ u, some 7 = some u ∧ u ≤ 30) :=
  ⟨(C2_forward_exactly_one_outcome 30 none none).2.2.1 (by decide),
   (C2_forward_exactly_one_outcome 30 (some (5, sampleResp)) none).2.2.2.1 sampleResp (by decide),
   (C2_forward_exactly_one_outcome 30 none (some 7)).2.2.2.2 (by decide)⟩

theorem mem_eraseId_of_ne {l : List String} {a b : String} (hab : a ≠ b) (h : a ∈ l) :
    a ∈ eraseId l b := by
  induction l with
  | nil => cases h
  | cons x rest ih =>
    unfold eraseId
    split_ifs with hx
    · rcases List.mem_cons.mp h with rfl | h2
      · exact absurd hx hab
      · exact h2
    · rcases List.mem_cons.mp h with rfl | h2
      · exact List.mem_cons_self _ _
      · exact List.mem_cons_of_mem _ (ih h2)

theorem not_mem_eraseId_self {l : List String} (hnd : l.Nodup) (a : String) :
    a ∉ eraseId l a := by
  induction l with
  | nil => simp [eraseId]
  | cons x rest ih =>
    have hx_not := (List.nodup_cons.mp hnd).1
    have hrest := (List.nodup_cons.mp hnd).2
    unfold eraseId
    split_ifs with hx
    · subst hx
      exact hx_not
    · intro hmem
      rcases List.mem_cons.mp hmem with rfl | h2
      · exact hx rfl
      · exact ih hrest h2

theorem count_eraseId_self {l : List String} {i : String} (h : i ∈ l) :
    l.count i = (eraseId l i).count i + 1 := by
  induction l with
  | nil => cases h
  | cons x rest ih =>
    unfold eraseId
    split_ifs with hx
    · subst hx
      simp [List.count_cons_self]
    · have hxi : x ≠ i := hx
      have h2 : i ∈ rest := by
        rcases List.mem_cons.mp h with rfl | h2
        · exact absurd rfl hxi
        · exact h2
      simp [List.count_cons, hxi, Ne.symm hxi, ih h2]

theorem count_eraseId_ne {l : List String} {i k : String} (h : k ≠ i) :
    (eraseId l k).count i = l.count i := by
  induction l with
  | nil => rfl
  | cons x rest ih =>
    unfold eraseId
    split_ifs with hx
    · subst hx
      simp [List.count_cons, h]
    · simp [List.count_cons, ih]

theorem deliverAll_lookup_other (rs : List TunnelResponse) (s : CorrState) (i : String)
    (h : ∀ r ∈ rs, r.ID ≠ i) :
    lookupKey (deliverAll s rs).delivered i = lookupKey s.delivered i := by
  induction rs generalizing s with
  | nil => rfl
  | cons r rest ih =>
    have hr : r.ID ≠ i := h r (List.mem_cons_self _ _)
    have hrest : ∀ rr ∈ rest, rr.ID ≠ i := fun rr hrr => h rr (List.mem_cons_of_mem _ hrr)
    show lookupKey (deliverAll (processResponse s r) rest).delivered i = _
    rw [ih (processResponse s r) hrest]
    unfold processResponse
    split_ifs with hmem
    · simp [lookupKey, hr]
    · rfl

theorem deliverAll_delivers (rs : List TunnelResponse) (s : CorrState) (r : TunnelResponse)
    (hmem : r ∈ rs) (hnd : (rs.map TunnelResponse.ID).Nodup) (hp : r.ID ∈ s.pending) :
    lookupKey (deliverAll s rs).delivered r.ID = some r := by
  induction rs generalizing s with
  | nil => cases hmem
  | cons a rest ih =>
    have hnd1 : a.ID ∉ rest.map TunnelResponse.ID := by
      simpa using (List.nodup_cons.mp hnd).1
    have hnd2 : (rest.map TunnelResponse.ID).Nodup := (List.nodup_cons.mp hnd).2
    rcases List.mem_cons.mp hmem with rfl | htail
    · have hothers : ∀ rr ∈ rest, rr.ID ≠ r.ID := by
        intro rr hrr heq
        exact hnd1 (heq ▸ List.mem_map_of_mem TunnelResponse.ID hrr)
      show lookupKey (deliverAll (processResponse s r) rest).delivered r.ID = some r
      rw [deliverAll_lookup_other rest _ _ hothers]
      simp [processResponse, hp, lookupKey]
    · have hne : r.ID ≠ a.ID := by
        intro heq
        exact hnd1 (heq ▸ List.mem_map_of_mem TunnelResponse.ID htail)
      show lookupKey (deliverAll (processResponse s a) rest).delivered r.ID = some r
      refine ih (processResponse s a) htail hnd2 ?_
      unfold processResponse
      split_ifs with hma
      · exact mem_eraseId_of_ne hne hp
      · exact hp

/-- Claim C3: correlation is identifier-based, never order-based — for
every set of registered identifiers and every arrival order of their
responses, each response is delivered to the receptacle registered under
its own identifier. -/
theorem C3_identifier_correlation (regs : List String) (resps : List TunnelResponse)
    (hnd : regs.Nodup) (hperm : List.Perm (resps.map TunnelResponse.ID) regs) :
    ∀ r ∈ resps,
      lookupKey (deliverAll { pending := regs, delivered := [] } resps).delivered r.ID
        = some r := by
  intro r hr
  apply deliverAll_delivers resps _ r hr ((List.Perm.nodup_iff hperm).mpr hnd)
  exact hperm.subset (List.mem_map_of_mem TunnelResponse.ID hr)

/-- Witness for C3: with identifiers `a` and `b` registered and the
responses arriving in the opposite order, the caller waiting under `a`
still receives exactly the response bearing `a`. -/
theorem C3_identifier_correlation_witness :
    lookupKey (deliverAll { pending := ["a", "b"], delivered := [] }
        [sampleRespB, sampleRespA]).delivered sampleRespA.ID = some sampleRespA :=
  C3_identifier_correlation ["a", "b"] [sampleRespB, sampleRespA]
    (by decide) (by decide) sampleRespA (by decide)

theorem runLoop_count_le (msgs : List (Option TunnelResponse)) (s : CorrState) (i : String) :
    deliveredCount (runLoop s msgs) i ≤ deliveredCount s i + s.pending.count i := by
  induction msgs generalizing s with
  | nil => exact Nat.le_add_right _ _
  | cons m rest ih =>
    cases m with
    | none =>
      show deliveredCount (drainState s) i ≤ _
      simp only [drainState, deliveredCount]
      exact Nat.le_add_right _ _
    | some r =>
      show deliveredCount (runLoop (processResponse s r) rest) i ≤ _
      refine le_trans (ih (processResponse s r)) ?_
      unfold processResponse
      split_ifs with hm
      · by_cases hir : r.ID = i
        · subst hir
          have hc := count_eraseId_self hm
          simp only [deliveredCount, List.map_cons, List.count_cons]
          simp
          omega
        · have hc := @count_eraseId_ne s.pending i r.ID hir
          simp only [deliveredCount, List.map_cons, List.count_cons]
          simp [hir, Ne.symm hir, hc]
      · exact le_refl _

/-- Claim C4: a response identifier is delivered at most once across the
read loop's run — the entry is removed on first delivery, a later
response with the same or an unknown identifier is dropped without
modifying any entry, and a dropped response does not terminate the
loop. -/
theorem C4_at_most_once_delivery (s : CorrState) (r : TunnelResponse)
    (msgs : List (Option TunnelResponse)) (regs : List String) (i : String) :
    (s.pending.Nodup → processResponse (processResponse s r) r = processResponse s r)
    ∧ (r.ID ∉ s.pending → processResponse s r = s)
    ∧ (s.pending.Nodup → r.ID ∈ s.pending →
        r.ID ∉ (processResponse s r).pending
        ∧ (processResponse s r).delivered = (r.ID, r) :: s.delivered)
    ∧ (regs.Nodup →
        deliveredCount (runLoop { pending := regs, delivered := [] } msgs) i ≤ 1)
    ∧ (r.ID ∉ s.pending → runLoop s (some r :: msgs) = runLoop s msgs) := by
  refine ⟨?_, ?_, ?_, ?_, ?_⟩
  · intro hnd
    by_cases hm : r.ID ∈ s.pending
    · have hout := not_mem_eraseId_self hnd r.ID
      unfold processResponse
      rw [if_pos hm]
      rw [if_neg (by simpa using hout)]
    · simp [processResponse, hm]
  · intro hm
    simp [processResponse, hm]
  · intro hnd hm
    constructor
    · simp only [processResponse, if_pos hm]
      exact not_mem_eraseId_self hnd r.ID
    · simp [processResponse, hm]
  · intro hnd
    have hb := runLoop_count_le msgs { pending := regs, delivered := [] } i
    have hcnt : regs.count i ≤ 1 := List.nodup_iff_count_le_one.mp hnd i
    simp only [deliveredCount, List.map_nil, List.count_nil] at hb ⊢
    omega
  · intro hm
    show runLoop (processResponse s r) msgs = runLoop s msgs
    rw [show processResponse s r = s by simp [processResponse, hm]]

/-- Witness for C4: with only identifier `a` registered, processing its
response twice equals processing it once, and the receptacle for `a`
records at most one delivery over the run. -/
theorem C4_at_most_once_delivery_witness :
    processResponse (processResponse { pending := ["a"], delivered := [] } sampleRespA)
        sampleRespA
      = processResponse { pending := ["a"], delivered := [] } sampleRespA
    ∧ deliveredCount
        (runLoop { pending := ["a"], delivered := [] } [some sampleRespA, some sampleRespA])
        "a" ≤ 1 :=
  ⟨(C4_at_most_once_delivery { pending := ["a"], delivered := [] } sampleRespA
      [some sampleRespA, some sampleRespA] ["a"] "a").1 (by decide),
   (C4_at_most_once_delivery { pending := ["a"], delivered := [] } sampleRespA
      [some sampleRespA, some sampleRespA] ["a"] "a").2.2.2.1 (by decide)⟩
